import Mathlib

/-!
Shallow embedding of the feed-acquisition pipeline of `src/rss-ticker.js`
(the `RSSTickerElement` web component): the cache store (`loadFromCache`,
`saveToCache`), the document parsers (`parseXMLFeed`, `parseJSONFeed`),
the retry wrapper (`fetchServiceWithRetries`), the domain extraction
(`extractDomain`) and the acquisition coordinator (`fetchRSSFeed`).

Platform collaborators that the source calls (the DOM parser, `stripHtml`
via a detached DOM node, `new Date` parsing, `toLocaleDateString`, the
`URL` constructor, `fetch`) are modelled as explicit function or data
arguments; everything the source itself computes is translated directly.
-/

namespace RSSTicker

/-- One normalized feed entry as built by `parseXMLFeed` / `parseJSONFeed`
in `src/rss-ticker.js` (an object with fields domain, date, title, link). -/
structure Post where
  domain : String
  date : String
  title : String
  link : String
deriving DecidableEq, Repr

/-- One proxy-service descriptor, as in the `services` array literal defined
inside `fetchRSSFeed` (lines 150-165): a name, a timeout in milliseconds and
the flag selecting the XML or the JSON decoding branch. The `url` field of
the source is a pure function of the feed URL and is not needed by any
claim, so it is omitted from the descriptor. -/
structure Service where
  name : String
  timeout : Nat
  parseXML : Bool
deriving DecidableEq, Repr

/-- The three relay services declared inside `fetchRSSFeed`, in declaration
order: allorigins (timeout 3500, XML), jsonp-proxy (timeout 3000, XML),
rss2json (timeout 3000, JSON). -/
def services : List Service :=
  [⟨"allorigins", 3500, true⟩, ⟨"jsonp-proxy", 3000, true⟩, ⟨"rss2json", 3000, false⟩]

/-- The whitespace class of JavaScript string trimming (space, tab, line
feed, carriage return, vertical tab, form feed, no-break space). -/
def jsWhitespace (c : Char) : Bool :=
  c = ' ' || c = '\t' || c = '\n' || c = '\r' || c = '\x0b' || c = '\x0c' || c = '\u00A0'

/-- Model of `String.prototype.trim`: strip leading and trailing
whitespace. -/
def jsTrim (s : String) : String :=
  String.mk (((s.data.dropWhile jsWhitespace).reverse.dropWhile jsWhitespace).reverse)

/-- Character-list prefix test. -/
def listStartsWith : List Char → List Char → Bool
  | _, [] => true
  | [], _ :: _ => false
  | c :: cs, d :: ds => c = d && listStartsWith cs ds

/-- String prefix test over the character lists. -/
def strStartsWith (s p : String) : Bool := listStartsWith s.data p.data

/-- Numeric value of a decimal digit character, `none` for any other char. -/
def digitVal (c : Char) : Option Nat :=
  if '0' ≤ c ∧ c ≤ '9' then some (c.toNat - 48) else none

/-- Longest run of leading decimal digits of a character list. -/
def takeDigits : List Char → List Nat
  | [] => []
  | c :: cs =>
    match digitVal c with
    | some d => d :: takeDigits cs
    | none => []

/-- Decimal value of a digit list (most significant first). -/
def digitsToNat (ds : List Nat) : Nat := ds.foldl (fun a d => a * 10 + d) 0

/-- Signed integer from a leading digit run; `none` when no digit leads. -/
def digitsOptInt (sign : Int) (cs : List Char) : Option Int :=
  match takeDigits cs with
  | [] => none
  | ds => some (sign * (digitsToNat ds : Int))

/-- Model of JavaScript `parseInt` as applied to the `max-posts` attribute
string: skip surrounding whitespace, optional sign, then the longest leading
decimal digit run; `none` models the `NaN` result. -/
def jsParseInt (s : String) : Option Int :=
  match (jsTrim s).data with
  | '-' :: r => digitsOptInt (-1) r
  | '+' :: r => digitsOptInt 1 r
  | r => digitsOptInt 1 r

/-- Model of `Array.prototype.slice(0, end)` as used on the item lists in
both parsers: `none` models the `Infinity` end bound (no truncation), a
non-negative end keeps that many leading elements, a negative end counts
from the end of the array. -/
def jsSlice {α : Type} (l : List α) (stop : Option Int) : List α :=
  match stop with
  | none => l
  | some k => if 0 ≤ k then l.take k.toNat else l.take (l.length - (Int.toNat (-k)))

/-- Resolution of the `max-posts` attribute performed identically at lines
351-352 and 432-433: a missing attribute (`null`) or an empty string is
falsy and yields `Infinity` (`none` here), as does a `parseInt` failure;
otherwise the parsed integer is the bound. -/
def resolveMaxPosts (attr : Option String) : Option Int :=
  match attr with
  | none => none
  | some s => if s = "" then none else jsParseInt s

/-- First-match replacement of the anchored alternation
`/^(www\.|rss\.|feeds\.|api\.)/` used by `extractDomain`: exactly one
leading occurrence of one of the four prefixes is removed. -/
def stripDomainPre (h : String) : String :=
  if strStartsWith h "www." then h.drop 4
  else if strStartsWith h "rss." then h.drop 4
  else if strStartsWith h "feeds." then h.drop 6
  else if strStartsWith h "api." then h.drop 4
  else h

/-- `extractDomain` (lines 486-493). The argument models the outcome of the
platform `new URL(url)` call on the input string: `none` when the URL
constructor throws (the source catch branch returns "Unknown"), and
`some hostname` when it parses. Note the platform yields the empty hostname
string for parsable non-hierarchical URLs such as `mailto:user@example.com`. -/
def extractDomain (host : Option String) : String :=
  match host with
  | none => "Unknown"
  | some h => stripDomainPre h

/-! XML document model. An `XmlItem` records exactly the projections of one
`<item>`/`<entry>` element that `parseXMLFeed` queries; an `XmlDoc` records
the projections of the parsed document. -/

/-- One feed item element as seen by `parseXMLFeed`: the text content of a
`<title>` child if present, the text contents of the candidate date child
elements as an association list keyed by selector, the `<link>` child as
(text content, optional href attribute) if present, and the text content of
a `<guid>` child if present. -/
structure XmlItem where
  titleText : Option String
  dateFields : List (String × String)
  linkEl : Option (String × Option String)
  guidText : Option String
deriving DecidableEq, Repr

/-- A parsed XML document as seen by `parseXMLFeed`: the text of a
`parsererror` element when the platform DOM parser reports a syntax error,
and the results of the three item queries `rss > channel > item`, `item`
and `entry`. -/
structure XmlDoc where
  parserErrorText : Option String
  channelItems : List XmlItem
  bareItems : List XmlItem
  entries : List XmlItem
deriving DecidableEq, Repr

/-- Association-list lookup modelling `item.querySelector(sel)` over the
recorded date fields: first binding wins. -/
def lookupField (fs : List (String × String)) (k : String) : Option String :=
  match fs with
  | [] => none
  | (k2, v) :: rest => if k2 = k then some v else lookupField rest k

/-- The ordered date selector list of line 378. -/
def dateSelectors : List String := ["pubDate", "published", "updated", "dc:date", "date"]

/-- Loop body of the date resolution (lines 379-388): for each selector in
order, if the element exists with truthy (nonempty) text whose trimmed value
parses as a valid date, format it and stop; otherwise continue. `pd` models
`new Date(s)` returning a valid time value (`none` is `NaN`), `fd` models
`toLocaleDateString`. -/
def resolveDateGo (pd : String → Option Int) (fd : Int → String)
    (fields : List (String × String)) : List String → String
  | [] => "No date"
  | sel :: rest =>
    match lookupField fields sel with
    | some t =>
      if t = "" then resolveDateGo pd fd fields rest
      else
        match pd (jsTrim t) with
        | some v => fd v
        | none => resolveDateGo pd fd fields rest
    | none => resolveDateGo pd fd fields rest

/-- Date resolution of one XML item over the fixed selector list. -/
def resolveDate (pd : String → Option Int) (fd : Int → String)
    (fields : List (String × String)) : String :=
  resolveDateGo pd fd fields dateSelectors

/-- Link resolution of one XML item (lines 390-409): link element text
content when truthy after trim, else its href attribute when truthy, else
the "#" sentinel; then the guid text (trimmed) replaces a remaining "#". -/
def xmlResolveLink (linkEl : Option (String × Option String))
    (guidText : Option String) : String :=
  let link0 :=
    match linkEl with
    | some (txt, href) =>
      if txt ≠ "" ∧ jsTrim txt ≠ "" then jsTrim txt
      else
        match href with
        | some h => if h ≠ "" then h else "#"
        | none => "#"
    | none => "#"
  if link0 = "#" then
    match guidText with
    | some g => if g ≠ "" then jsTrim g else "#"
    | none => "#"
  else link0

/-- The post filter applied by both parsers (lines 418 and 472):
`post.title !== 'No title' && post.title.length > 3`. -/
def postFilter (p : Post) : Bool :=
  p.title != "No title" && p.title.length > 3

/-- Construction of one Post from one XML item (lines 366-417). `strip`
models `this.stripHtml` (DOM-based tag stripping and entity decoding). -/
def xmlItemToPost (strip : String → String) (pd : String → Option Int)
    (fd : Int → String) (domain : String) (it : XmlItem) : Post :=
  let title :=
    match it.titleText with
    | some t => jsTrim (strip t)
    | none => "No title"
  { domain := domain
    date := resolveDate pd fd it.dateFields
    title := title
    link := jsTrim (xmlResolveLink it.linkEl it.guidText) }

/-- Item selection of lines 356-358: channel items, else bare items, else
Atom entries. -/
def xmlSelectItems (doc : XmlDoc) : List XmlItem :=
  if doc.channelItems ≠ [] then doc.channelItems
  else if doc.bareItems ≠ [] then doc.bareItems
  else doc.entries

/-- The slice of the component's mutable state that the two parsers touch:
the `max-posts` attribute, read via `this.getAttribute`, and the `posts`
field, written via `this.posts = ...`. -/
structure CompState where
  maxPostsAttr : Option String
  posts : List Post
deriving DecidableEq, Repr

/-- The slice-map-filter pipeline of lines 364-418 producing the post list
of an XML parse. -/
def xmlComputePosts (strip : String → String) (pd : String → Option Int)
    (fd : Int → String) (attr : Option String) (domain : String)
    (items : List XmlItem) : List Post :=
  ((jsSlice items (resolveMaxPosts attr)).map (xmlItemToPost strip pd fd domain)).filter postFilter

/-- `parseXMLFeed` (lines 339-428). `host` models the platform URL parse of
the feed URL used by `extractDomain`. The returned state carries the
component's `posts` field after the call (assigned just before the
empty-after-filter check, hence also on that error path); the `Except`
component is the thrown-or-returned status, with every error wrapped as
`XML parsing failed: ...` by the surrounding try/catch. -/
def parseXMLFeed (strip : String → String) (pd : String → Option Int)
    (fd : Int → String) (st : CompState) (host : Option String)
    (doc : XmlDoc) : CompState × Except String Unit :=
  match doc.parserErrorText with
  | some pe =>
    (st, Except.error ("XML parsing failed: Invalid XML format: " ++ pe.take 100 ++ "..."))
  | none =>
    let items := xmlSelectItems doc
    if items = [] then
      (st, Except.error "XML parsing failed: No feed items found in XML")
    else
      let posts := xmlComputePosts strip pd fd st.maxPostsAttr (extractDomain host) items
      ({ st with posts := posts },
        if posts = [] then
          Except.error "XML parsing failed: No valid posts found after parsing and filtering"
        else Except.ok ())

/-! JSON feed model for `parseJSONFeed`. -/

/-- A JSON value appearing in a link-like position (`item.link`, `item.url`,
`item.guid`): either a string or an object, of which only the `href` and
`url` string sub-fields are ever read. An object is always truthy; a string
is truthy iff nonempty. -/
inductive JLinkVal where
  | s (v : String)
  | obj (href url : Option String)
deriving DecidableEq, Repr

/-- One JSON feed item as read by `parseJSONFeed` (lines 448-471): the
optional string fields it projects, plus the three link-like fields. -/
structure JsonItem where
  title : Option String
  titleDetailValue : Option String
  pubDate : Option String
  published : Option String
  datePublished : Option String
  updated : Option String
  link : Option JLinkVal
  url : Option JLinkVal
  guid : Option JLinkVal
deriving DecidableEq, Repr

/-- The top-level JSON payload as read by `parseJSONFeed` (lines 436-444):
the `items` field when present (an array, possibly empty, is truthy), the
`entries` field when present, and the payload itself when it is an array. -/
structure JsonData where
  items : Option (List JsonItem)
  entries : Option (List JsonItem)
  selfArray : Option (List JsonItem)
deriving DecidableEq, Repr

/-- The if-chain of lines 436-444 choosing the item array: `data.items`,
else `data.entries`, else the payload when it is itself an array, else the
unknown-format failure (`none` here). -/
def jsonDataItems (d : JsonData) : Option (List JsonItem) :=
  match d.items with
  | some l => some l
  | none =>
    match d.entries with
    | some l => some l
    | none => d.selfArray

/-- JavaScript truthy-chaining `a || b || dflt` over optional strings: the
first present nonempty string wins, else the default. -/
def firstTruthy (xs : List (Option String)) (dflt : String) : String :=
  match xs with
  | [] => dflt
  | some s :: rest => if s ≠ "" then s else firstTruthy rest dflt
  | none :: rest => firstTruthy rest dflt

/-- Truthy-chaining over optional strings returning the winner, if any. -/
def firstTruthyOpt (xs : List (Option String)) : Option String :=
  match xs with
  | [] => none
  | some s :: rest => if s ≠ "" then some s else firstTruthyOpt rest
  | none :: rest => firstTruthyOpt rest

/-- Truthiness of a link-like JSON value. -/
def jTruthy : JLinkVal → Bool
  | JLinkVal.s v => v ≠ ""
  | JLinkVal.obj _ _ => true

/-- Truthy-chaining `item.link || item.url || item.guid` over link values. -/
def firstJTruthy (xs : List (Option JLinkVal)) : Option JLinkVal :=
  match xs with
  | [] => none
  | some v :: rest => if jTruthy v then some v else firstJTruthy rest
  | none :: rest => firstJTruthy rest

/-- Link resolution of one JSON item (lines 460-463): the first truthy of
link, url, guid, defaulting to "#"; when the winner is an object,
`link.href || link.url || '#'` is taken instead. -/
def jsonResolveLink (it : JsonItem) : String :=
  match firstJTruthy [it.link, it.url, it.guid] with
  | none => "#"
  | some (JLinkVal.s v) => v
  | some (JLinkVal.obj href url) =>
    match href with
    | some h => if h ≠ "" then h else firstTruthy [url] "#"
    | none => firstTruthy [url] "#"

/-- Date resolution of one JSON item (lines 451-458): the first truthy of
pubDate, published, date_published, updated is parsed; only that one
candidate is tried, and an invalid date yields the "No date" sentinel. -/
def jsonResolveDate (pd : String → Option Int) (fd : Int → String)
    (it : JsonItem) : String :=
  match firstTruthyOpt [it.pubDate, it.published, it.datePublished, it.updated] with
  | none => "No date"
  | some p =>
    match pd p with
    | some v => fd v
    | none => "No date"

/-- Construction of one Post from one JSON item (lines 448-470). -/
def jsonItemToPost (strip : String → String) (pd : String → Option Int)
    (fd : Int → String) (domain : String) (it : JsonItem) : Post :=
  { domain := domain
    date := jsonResolveDate pd fd it
    title := jsTrim (strip (firstTruthy [it.title, it.titleDetailValue] "No title"))
    link := jsTrim (jsonResolveLink it) }

/-- The slice-map-filter pipeline of lines 446-472 producing the post list
of a JSON parse. -/
def jsonComputePosts (strip : String → String) (pd : String → Option Int)
    (fd : Int → String) (attr : Option String) (domain : String)
    (items : List JsonItem) : List Post :=
  ((jsSlice items (resolveMaxPosts attr)).map (jsonItemToPost strip pd fd domain)).filter postFilter

/-- `parseJSONFeed` (lines 430-477). Same conventions as `parseXMLFeed`;
this parser has no wrapping try/catch, so error messages are unprefixed. -/
def parseJSONFeed (strip : String → String) (pd : String → Option Int)
    (fd : Int → String) (st : CompState) (host : Option String)
    (data : JsonData) : CompState × Except String Unit :=
  match jsonDataItems data with
  | none => (st, Except.error "Unknown JSON format")
  | some items =>
    let posts := jsonComputePosts strip pd fd st.maxPostsAttr (extractDomain host) items
    ({ st with posts := posts },
      if posts = [] then
        Except.error "No valid posts found after parsing and filtering"
      else Except.ok ())

/-! Cache store: `loadFromCache` / `saveToCache` over a localStorage model. -/

/-- The base64 alphabet. -/
def b64Chars : List Char :=
  "ABCDEFGHIJKLMNOPQRSTUVWXYZabcdefghijklmnopqrstuvwxyz0123456789+/".toList

/-- The base64 digit of a 6-bit value. -/
def b64Digit (n : Nat) : Char := b64Chars.getD n 'A'

/-- Standard base64 of a byte list, with padding. -/
def encodeBase64 : List Nat → String
  | [] => ""
  | [a] => String.mk [b64Digit (a / 4), b64Digit (a % 4 * 16)] ++ "=="
  | [a, b] =>
    String.mk [b64Digit (a / 4), b64Digit (a % 4 * 16 + b / 16), b64Digit (b % 16 * 4)] ++ "="
  | a :: b :: c :: rest =>
    String.mk [b64Digit (a / 4), b64Digit (a % 4 * 16 + b / 16),
      b64Digit (b % 16 * 4 + c / 64), b64Digit (c % 64)] ++ encodeBase64 rest

/-- The platform `btoa`: base64 of the code points of a string, throwing an
InvalidCharacterError when any code point exceeds 255 (the string is not a
byte string). -/
def btoa (s : String) : Except String String :=
  if s.data.any (fun c => 255 < c.toNat) then Except.error "InvalidCharacterError"
  else Except.ok (encodeBase64 (s.data.map Char.toNat))

/-- A value stored under a localStorage key, as `loadFromCache` can observe
it: the empty string (falsy, treated as missing without deletion), a string
that `JSON.parse` fails on or that lacks the expected shape in a way that
makes the destructuring throw, or a well-formed entry `{data, timestamp}`.
An entry whose timestamp is not numeric behaves exactly like an expired one
(the `NaN` age fails the freshness comparison), so it needs no own case. -/
inductive StoredVal where
  | emptyStr
  | corrupt
  | entry (posts : List Post) (timestamp : Int)
deriving DecidableEq, Repr

/-- A localStorage snapshot: an association list from keys to stored values. -/
abbrev Store := List (String × StoredVal)

/-- `localStorage.getItem`: first binding wins. -/
def lookupStore (st : Store) (k : String) : Option StoredVal :=
  match st with
  | [] => none
  | (k2, v) :: rest => if k2 = k then some v else lookupStore rest k

/-- `localStorage.removeItem`: removes every binding of the key. -/
def removeStore (st : Store) (k : String) : Store :=
  match st with
  | [] => []
  | (k2, v) :: rest =>
    if k2 = k then removeStore rest k else (k2, v) :: removeStore rest k

/-- `localStorage.setItem`: overwrites the binding of the key. -/
def setStore (st : Store) (k : String) (v : StoredVal) : Store :=
  (k, v) :: removeStore st k

/-- The cache freshness window: `1000 * 60 * 30` milliseconds (line 312). -/
def cacheDuration : Int := 1000 * 60 * 30

/-- `loadFromCache` (lines 303-323). Returns the possibly updated store and
the cached post list or `null`. When `btoa rssUrl` throws (a feed URL with a
code point above 255), the catch handler recomputes the key with
`btoa(rssUrl)`, which throws again inside the catch, so the error escapes
the function: that is the `Except.error` case. When the stored entry is
corrupt, the catch handler deletes it (the second `btoa` succeeds here) and
the function returns `null`. A fresh entry (`now - timestamp < 30min`) is
returned; a stale one is deleted and `null` is returned. -/
def loadFromCache (storage : Store) (now : Int) (rssUrl : String) :
    Except String (Store × Option (List Post)) :=
  match btoa rssUrl with
  | Except.error e => Except.error e
  | Except.ok enc =>
    let cacheKey := "rss_ticker_cache_" ++ enc
    match lookupStore storage cacheKey with
    | none => Except.ok (storage, none)
    | some StoredVal.emptyStr => Except.ok (storage, none)
    | some StoredVal.corrupt => Except.ok (removeStore storage cacheKey, none)
    | some (StoredVal.entry posts ts) =>
      if now - ts < cacheDuration then Except.ok (storage, some posts)
      else Except.ok (removeStore storage cacheKey, none)

/-- `saveToCache` (lines 325-336). `writeFails` models a `setItem` failure
(quota exceeded); every failure, including a throwing `btoa`, is swallowed
by the catch, so the function always returns a store and never an error. -/
def saveToCache (storage : Store) (writeFails : Bool) (now : Int)
    (rssUrl : String) (data : List Post) : Store :=
  match btoa rssUrl with
  | Except.error _ => storage
  | Except.ok enc =>
    if writeFails then storage
    else setStore storage ("rss_ticker_cache_" ++ enc) (StoredVal.entry data now)

/-! Retry wrapper, race and sequential fallback of the coordinator. -/

/-- `fetchServiceWithRetries` (lines 212-223), instrumented for counting.
`attempt k` models the outcome of the k-th `this.fetchService(service,
rssUrl)` network attempt of this wrapper (an `Except.ok` carries the post
list the attempt parsed into `this.posts`). The result triple is (final
outcome, number of attempts made, list of inter-attempt delay durations in
milliseconds). On failure with retries left the wrapper sleeps 500 ms and
recurses with one fewer retry; with no retries left it rethrows the last
error unchanged. -/
def fetchServiceWithRetries (attempt : Nat → Except String (List Post)) :
    Nat → Nat → Except String (List Post) × Nat × List Nat
  | k, 0 =>
    match attempt k with
    | Except.ok v => (Except.ok v, 1, [])
    | Except.error e => (Except.error e, 1, [])
  | k, r + 1 =>
    match attempt k with
    | Except.ok v => (Except.ok v, 1, [])
    | Except.error _ =>
      let t := fetchServiceWithRetries attempt (k + 1) r
      (t.1, t.2.1 + 1, 500 :: t.2.2)

/-- Auxiliary fold of `Promise.race`: keeps the earliest-settling task,
with the earlier list position winning ties, and returns its result. -/
def raceGo (best : Nat × Except String (List Post)) :
    List (Nat × Except String (List Post)) → Except String (List Post)
  | [] => best.2
  | t :: rest => raceGo (if t.1 < best.1 then t else best) rest

/-- `Promise.race` over retry-wrapped attempts (line 174): each task is a
pair (settle time, settled outcome); the race settles with the outcome of
the first task to settle, fulfilled or rejected alike. `none` models an
empty race, which never settles (unreachable here: the service list is a
nonempty literal). -/
def raceFirstSettled : List (Nat × Except String (List Post)) →
    Option (Except String (List Post))
  | [] => none
  | t :: rest => some (raceGo t rest)

/-- The sequential fallback loop (lines 184-194): try each service in
declared order, stop at the first success, and push
`"name: message"` onto the error accumulator for each failure. -/
def fallbackLoop (atts : List (Service × Except String (List Post)))
    (errors : List String) : Option (List Post) × List String :=
  match atts with
  | [] => (none, errors)
  | (svc, r) :: rest =>
    match r with
    | Except.ok posts => (some posts, errors)
    | Except.error msg => fallbackLoop rest (errors ++ [svc.name ++ ": " ++ msg])

/-- The outcome of one top-level acquisition, with the source tag "cache",
"race" or "fallback" on success and the aggregated per-relay error strings
on failure. -/
inductive Outcome where
  | success (posts : List Post) (source : String)
  | failure (errors : List String)
deriving DecidableEq, Repr

/-- The observable result of one `fetchRSSFeed` run: its outcome, whether
any relay network attempt was issued, and whether the sequential fallback
phase was entered. -/
structure FetchResult where
  outcome : Outcome
  usedNetwork : Bool
  enteredFallback : Bool
deriving DecidableEq, Repr

/-- `fetchRSSFeed` (lines 123-209), the acquisition coordinator, for one
uncoalesced run (the `isLoading` duplicate-call guard and the debounce
timer are concurrency plumbing outside any claim). `race s` gives the
settle time and outcome of the retry-wrapped racing attempt launched for
service `s`; `seq s` gives the outcome of its retry-wrapped sequential
fallback attempt. The cache is consulted first: a hit returns the cached
list with no network work. Otherwise the race of all services is awaited;
if its first settled task fulfilled, its post list wins and is written
back to the cache, else the sequential fallback runs, writing back on its
first success or aggregating every failure message. A throwing
`loadFromCache` (non-byte feed URL) escapes `fetchRSSFeed`, which calls it
unguarded. -/
def fetchRSSFeed (storage : Store) (now : Int) (rssUrl : String)
    (writeFails : Bool) (race : Service → Nat × Except String (List Post))
    (seq : Service → Except String (List Post)) :
    Except String (FetchResult × Store) :=
  match loadFromCache storage now rssUrl with
  | Except.error e => Except.error e
  | Except.ok (st, some data) =>
    Except.ok (⟨Outcome.success data "cache", false, false⟩, st)
  | Except.ok (st, none) =>
    match raceFirstSettled (services.map race) with
    | some (Except.ok posts) =>
      Except.ok (⟨Outcome.success posts "race", true, false⟩,
        saveToCache st writeFails now rssUrl posts)
    | _ =>
      match fallbackLoop (services.map (fun s => (s, seq s))) [] with
      | (some posts, _) =>
        Except.ok (⟨Outcome.success posts "fallback", true, true⟩,
          saveToCache st writeFails now rssUrl posts)
      | (none, errs) => Except.ok (⟨Outcome.failure errs, true, true⟩, st)

/-- Whether a settled race outcome is a fulfillment. -/
def firstSettledOk : Option (Except String (List Post)) → Bool
  | some (Except.ok _) => true
  | _ => false

/-! Helper lemmas about the store and the coordinator combinators. -/

lemma lookupStore_removeStore (st : Store) (k : String) :
    lookupStore (removeStore st k) k = none := by
  induction st with
  | nil => rfl
  | cons p rest ih =>
    obtain ⟨k2, v⟩ := p
    by_cases h : k2 = k
    · simpa [removeStore, h] using ih
    · simpa [removeStore, lookupStore, h] using ih

lemma raceGo_mem (l : List (Nat × Except String (List Post)))
    (best : Nat × Except String (List Post)) :
    raceGo best l ∈ best.2 :: l.map Prod.snd := by
  induction l generalizing best with
  | nil => simp [raceGo]
  | cons t rest ih =>
    rw [show raceGo best (t :: rest) = raceGo (if t.1 < best.1 then t else best) rest from rfl]
    by_cases ht : t.1 < best.1
    · rw [if_pos ht]
      rcases List.mem_cons.mp (ih t) with h | h
      · simp only [List.map_cons, List.mem_cons]
        exact Or.inr (Or.inl h)
      · simp only [List.map_cons, List.mem_cons]
        exact Or.inr (Or.inr h)
    · rw [if_neg ht]
      rcases List.mem_cons.mp (ih best) with h | h
      · simp only [List.map_cons, List.mem_cons]
        exact Or.inl h
      · simp only [List.map_cons, List.mem_cons]
        exact Or.inr (Or.inr h)

lemma raceFirstSettled_mem (ts : List (Nat × Except String (List Post)))
    (r : Except String (List Post)) (h : raceFirstSettled ts = some r) :
    r ∈ ts.map Prod.snd := by
  cases ts with
  | nil => simp [raceFirstSettled] at h
  | cons t rest =>
    have hr : raceGo t rest = r := by simpa [raceFirstSettled] using h
    rw [List.map_cons, ← hr]
    exact raceGo_mem rest t

lemma fallbackLoop_all_fail (svcs : List Service)
    (seq : Service → Except String (List Post)) (msgOf : Service → String)
    (acc : List String) (h : ∀ s ∈ svcs, seq s = Except.error (msgOf s)) :
    fallbackLoop (svcs.map fun s => (s, seq s)) acc
      = (none, acc ++ svcs.map fun s => s.name ++ ": " ++ msgOf s) := by
  induction svcs generalizing acc with
  | nil => simp [fallbackLoop]
  | cons s rest ih =>
    have hs := h s (by simp)
    simp only [List.map_cons, fallbackLoop, hs]
    rw [ih _ (fun x hx => h x (by simp [hx]))]
    simp

lemma fetchRSSFeed_cacheHit (storage : Store) (now : Int) (rssUrl : String)
    (writeFails : Bool) (race : Service → Nat × Except String (List Post))
    (seq : Service → Except String (List Post)) (st : Store) (d : List Post)
    (hcache : loadFromCache storage now rssUrl = Except.ok (st, some d)) :
    fetchRSSFeed storage now rssUrl writeFails race seq
      = Except.ok (⟨Outcome.success d "cache", false, false⟩, st) := by
  unfold fetchRSSFeed
  rw [hcache]

lemma parseXMLFeed_ok_posts (strip : String → String) (pd : String → Option Int)
    (fd : Int → String) (st : CompState) (host : Option String) (doc : XmlDoc)
    (h : (parseXMLFeed strip pd fd st host doc).2 = Except.ok ()) :
    (parseXMLFeed strip pd fd st host doc).1.posts
      = xmlComputePosts strip pd fd st.maxPostsAttr (extractDomain host) (xmlSelectItems doc)
    ∧ (parseXMLFeed strip pd fd st host doc).1.posts ≠ [] := by
  obtain ⟨pe, ci, bi, en⟩ := doc
  cases pe with
  | some t => simp [parseXMLFeed] at h
  | none =>
    by_cases hi : xmlSelectItems ⟨none, ci, bi, en⟩ = []
    · simp [parseXMLFeed, hi] at h
    · by_cases hp : xmlComputePosts strip pd fd st.maxPostsAttr (extractDomain host)
          (xmlSelectItems ⟨none, ci, bi, en⟩) = []
      · simp [parseXMLFeed, hi, hp] at h
      · simp [parseXMLFeed, hi, hp]

lemma parseJSONFeed_ok_posts (strip : String → String) (pd : String → Option Int)
    (fd : Int → String) (st : CompState) (host : Option String) (data : JsonData)
    (h : (parseJSONFeed strip pd fd st host data).2 = Except.ok ()) :
    (∃ items, jsonDataItems data = some items
      ∧ (parseJSONFeed strip pd fd st host data).1.posts
          = jsonComputePosts strip pd fd st.maxPostsAttr (extractDomain host) items)
    ∧ (parseJSONFeed strip pd fd st host data).1.posts ≠ [] := by
  cases hj : jsonDataItems data with
  | none => simp [parseJSONFeed, hj] at h
  | some items =>
    by_cases hp : jsonComputePosts strip pd fd st.maxPostsAttr (extractDomain host) items = []
    · simp [parseJSONFeed, hj, hp] at h
    · constructor
      · exact ⟨items, rfl, by simp [parseJSONFeed, hj, hp]⟩
      · simp [parseJSONFeed, hj, hp]

lemma postFilter_mem {l : List Post} (p : Post) (h : p ∈ l.filter postFilter) :
    p.title ≠ "No title" ∧ 3 < p.title.length := by
  have hf : postFilter p = true := List.of_mem_filter h
  unfold postFilter at hf
  simp only [Bool.and_eq_true, bne_iff_ne, decide_eq_true_eq] at hf
  exact hf

lemma computePosts_length_le {α : Type} (l : List α) (f : α → Post) (k : Int)
    (hk : 0 ≤ k) :
    ((((jsSlice l (some k)).map f).filter postFilter).length : Int) ≤ k := by
  have h1 : (((jsSlice l (some k)).map f).filter postFilter).length
      ≤ (jsSlice l (some k)).length := by
    calc (((jsSlice l (some k)).map f).filter postFilter).length
        ≤ ((jsSlice l (some k)).map f).length := List.length_filter_le _ _
      _ = (jsSlice l (some k)).length := List.length_map _ _
  have h2 : (jsSlice l (some k)).length ≤ k.toNat := by
    rw [show jsSlice l (some k)
        = if 0 ≤ k then l.take k.toNat else l.take (l.length - (Int.toNat (-k))) from rfl]
    rw [if_pos hk]
    exact List.length_take_le _ _
  calc ((((jsSlice l (some k)).map f).filter postFilter).length : Int)
      ≤ (k.toNat : Int) := by exact_mod_cast le_trans h1 h2
    _ = k := Int.toNat_of_nonneg hk

/-! Concrete material used by witnesses and counterexamples. -/

/-- A concrete valid post as parsed from `exDoc` below. -/
def exPostA : Post := ⟨"a.io", "No date", "Hello One", "#"⟩

/-- A second concrete valid post as parsed from `exDoc` below. -/
def exPostB : Post := ⟨"a.io", "No date", "Hello Two", "#"⟩

/-- A concrete stripHtml collaborator: the identity (no markup present). -/
def exStrip : String → String := fun s => s

/-- A concrete date-parse collaborator: nothing parses as a date. -/
def exPd : String → Option Int := fun _ => none

/-- A concrete date-format collaborator. -/
def exFd : Int → String := fun _ => "Jan 1, 2024"

/-- A concrete feed item with a valid title and nothing else. -/
def exItemA : XmlItem := ⟨some "Hello One", [], none, none⟩

/-- A second concrete feed item with a valid title and nothing else. -/
def exItemB : XmlItem := ⟨some "Hello Two", [], none, none⟩

/-- A concrete parsed RSS document with two channel items. -/
def exDoc : XmlDoc := ⟨none, [exItemA, exItemB], [], []⟩

/-- A concrete JSON feed item with a valid title and nothing else. -/
def exJItemA : JsonItem := ⟨some "Hello One", none, none, none, none, none, none, none, none⟩

/-- A concrete JSON payload with one item. -/
def exJData : JsonData := ⟨some [exJItemA], none, none⟩

/-- A concrete feed URL (all code points below 256, so `btoa` accepts it). -/
def exUrl : String := "https://a.io/rss"

/-- A store holding a cache entry of two posts for `exUrl` written at time 0. -/
def exCacheStore : Store := saveToCache [] false 0 exUrl [exPostA, exPostB]

/-- A race assignment where the earliest-settling attempt (allorigins, t=1)
fails while a later concurrent attempt (jsonp-proxy, t=2) succeeds. -/
def cexRace : Service → Nat × Except String (List Post) := fun s =>
  if s.name = "allorigins" then (1, Except.error "boom")
  else if s.name = "jsonp-proxy" then (2, Except.ok [exPostA])
  else (3, Except.error "late")

/-- A sequential-fallback assignment where every service fails. -/
def cexSeq : Service → Except String (List Post) := fun _ => Except.error "down"

/-- A race assignment where every attempt fails. -/
def cexRaceAllFail : Service → Nat × Except String (List Post) := fun s =>
  (s.timeout, Except.error (s.name ++ " down"))

/-- A sequential-fallback assignment failing with a per-service message. -/
def cexSeqMsg : Service → Except String (List Post) := fun s =>
  Except.error (s.name ++ " down")

/-- The per-service final error message of `cexSeqMsg`. -/
def cexMsgOf : Service → String := fun s => s.name ++ " down"

/-- A network attempt that always fails with the same message. -/
def cexAttempt : Nat → Except String (List Post) := fun _ => Except.error "net down"

/-- A store holding a one-post entry for the URL "ab" written at time 0
(the storage key is `rss_ticker_cache_` followed by base64 of "ab"). -/
def stW : Store := [("rss_ticker_cache_YWI=", StoredVal.entry [exPostA] 0)]

/-- A store holding a corrupt (unparsable) entry for the URL "ab". -/
def exCorruptStore : Store := [("rss_ticker_cache_YWI=", StoredVal.corrupt)]

/-! Claim theorems. -/

/-- C8: a query whose feed URL has an unexpired, uncorrupted cache entry
returns Success with the cached post list, with no relay network attempt
and no fallback, for every possible behaviour of the network: the cache is
consulted before any network work begins. -/
theorem cache_hit_no_network (storage : Store) (now : Int) (rssUrl : String)
    (writeFails : Bool) (race : Service → Nat × Except String (List Post))
    (seq : Service → Except String (List Post)) (st : Store) (d : List Post)
    (hcache : loadFromCache storage now rssUrl = Except.ok (st, some d)) :
    fetchRSSFeed storage now rssUrl writeFails race seq
      = Except.ok (⟨Outcome.success d "cache", false, false⟩, st) :=
  fetchRSSFeed_cacheHit storage now rssUrl writeFails race seq st d hcache

/-- Witness for C8: a 10-minute-old two-post cache entry for `exUrl` is
served as Success "cache" with no network use, whatever the relays do. -/
theorem cache_hit_no_network_witness :
    fetchRSSFeed exCacheStore 600000 exUrl false cexRace cexSeq
      = Except.ok (⟨Outcome.success [exPostA, exPostB] "cache", false, false⟩, exCacheStore) :=
  cache_hit_no_network exCacheStore 600000 exUrl false cexRace cexSeq
    exCacheStore [exPostA, exPostB] rfl

/-- C6: a cache entry written at time T with posts P is returned by a read
at time T2 when T2 - T is under 30 minutes (1800000 ms), and is deleted,
leaving the key absent, when T2 - T is at least 30 minutes. -/
theorem cache_expiry_boundary (storage : Store) (now T : Int) (url enc : String)
    (P : List Post) (henc : btoa url = Except.ok enc)
    (hlook : lookupStore storage ("rss_ticker_cache_" ++ enc)
      = some (StoredVal.entry P T)) :
    (now - T < cacheDuration → loadFromCache storage now url = Except.ok (storage, some P))
    ∧ (cacheDuration ≤ now - T →
        loadFromCache storage now url
          = Except.ok (removeStore storage ("rss_ticker_cache_" ++ enc), none)
        ∧ lookupStore (removeStore storage ("rss_ticker_cache_" ++ enc))
            ("rss_ticker_cache_" ++ enc) = none) := by
  unfold loadFromCache
  rw [henc]
  dsimp only
  rw [hlook]
  dsimp only
  constructor
  · intro hfresh
    rw [if_pos hfresh]
  · intro hstale
    rw [if_neg (not_lt.mpr hstale)]
    exact ⟨rfl, lookupStore_removeStore storage _⟩

/-- Witness for C6: the entry of `stW` written at time 0 is present when
read 29 minutes later and absent when read 31 minutes later. -/
theorem cache_expiry_boundary_witness :
    loadFromCache stW 1740000 "ab" = Except.ok (stW, some [exPostA])
    ∧ loadFromCache stW 1860000 "ab" = Except.ok ([], none) := by
  constructor
  · exact (cache_expiry_boundary stW 1740000 0 "ab" "YWI=" [exPostA] rfl rfl).1 (by decide)
  · exact ((cache_expiry_boundary stW 1860000 0 "ab" "YWI=" [exPostA] rfl rfl).2 (by decide)).1

/-- C9: the retry wrapper invokes the relay attempt at least once and at
most maxRetries + 1 times, sleeps exactly one fixed 500 ms delay between
consecutive failed attempts (one fewer delay than attempts), and when the
final outcome is an error it is exactly the error of the last attempt,
unwrapped. -/
theorem retry_wrapper_bounds_and_last_error
    (attempt : Nat → Except String (List Post)) (k maxRetries : Nat) :
    1 ≤ (fetchServiceWithRetries attempt k maxRetries).2.1
    ∧ (fetchServiceWithRetries attempt k maxRetries).2.1 ≤ maxRetries + 1
    ∧ (fetchServiceWithRetries attempt k maxRetries).2.2.length
        = (fetchServiceWithRetries attempt k maxRetries).2.1 - 1
    ∧ (∀ d ∈ (fetchServiceWithRetries attempt k maxRetries).2.2, d = 500)
    ∧ (∀ e, (fetchServiceWithRetries attempt k maxRetries).1 = Except.error e →
        attempt (k + (fetchServiceWithRetries attempt k maxRetries).2.1 - 1)
          = Except.error e) := by
  induction maxRetries generalizing k with
  | zero =>
    cases ha : attempt k with
    | ok v =>
      refine ⟨?_, ?_, ?_, ?_, ?_⟩ <;> simp [fetchServiceWithRetries, ha]
    | error e =>
      refine ⟨?_, ?_, ?_, ?_, ?_⟩ <;> simp [fetchServiceWithRetries, ha]
  | succ r ih =>
    cases ha : attempt k with
    | ok v =>
      refine ⟨?_, ?_, ?_, ?_, ?_⟩ <;> simp [fetchServiceWithRetries, ha]
    | error e =>
      have hrec := ih (k + 1)
      refine ⟨?_, ?_, ?_, ?_, ?_⟩ <;> simp only [fetchServiceWithRetries, ha]
      · omega
      · omega
      · simp only [List.length_cons]
        omega
      · intro d hd
        rcases List.mem_cons.mp hd with h | h
        · exact h
        · exact hrec.2.2.2.1 d h
      · intro e2 he2
        have hlast := hrec.2.2.2.2 e2 he2
        have h1 := hrec.1
        have harith : k + ((fetchServiceWithRetries attempt (k + 1) r).2.1 + 1) - 1
            = k + 1 + (fetchServiceWithRetries attempt (k + 1) r).2.1 - 1 := by omega
        rw [harith]
        exact hlast

/-- Witness for C9: an always-failing attempt with maxRetries = 2 is
invoked three times, with two 500 ms delays, and the final error is the
last attempt's error unchanged. -/
theorem retry_wrapper_bounds_and_last_error_witness :
    1 ≤ (fetchServiceWithRetries cexAttempt 0 2).2.1
    ∧ (fetchServiceWithRetries cexAttempt 0 2).2.1 ≤ 3
    ∧ (fetchServiceWithRetries cexAttempt 0 2).2.2.length
        = (fetchServiceWithRetries cexAttempt 0 2).2.1 - 1
    ∧ ((fetchServiceWithRetries cexAttempt 0 2).2.2.getD 0 9) = 500
    ∧ cexAttempt (0 + (fetchServiceWithRetries cexAttempt 0 2).2.1 - 1)
        = Except.error "net down" := by
  have h := retry_wrapper_bounds_and_last_error cexAttempt 0 2
  exact ⟨h.1, h.2.1, h.2.2.1,
    h.2.2.2.1 ((fetchServiceWithRetries cexAttempt 0 2).2.2.getD 0 9) (by decide),
    h.2.2.2.2 "net down" rfl⟩

/-- C5: every post list a parser returns successfully is nonempty and
contains only posts whose (stripped, trimmed) title differs from the
"No title" sentinel and has length strictly greater than 3; when the filter
leaves zero posts the parser fails instead of succeeding with an empty
list. -/
theorem parser_filter_invariant_and_nonempty (strip : String → String)
    (pd : String → Option Int) (fd : Int → String) (st : CompState)
    (host : Option String) (doc : XmlDoc) (jdata : JsonData) :
    ((parseXMLFeed strip pd fd st host doc).2 = Except.ok () →
      (parseXMLFeed strip pd fd st host doc).1.posts ≠ []
      ∧ ∀ p ∈ (parseXMLFeed strip pd fd st host doc).1.posts,
          p.title ≠ "No title" ∧ 3 < p.title.length)
    ∧ ((parseJSONFeed strip pd fd st host jdata).2 = Except.ok () →
      (parseJSONFeed strip pd fd st host jdata).1.posts ≠ []
      ∧ ∀ p ∈ (parseJSONFeed strip pd fd st host jdata).1.posts,
          p.title ≠ "No title" ∧ 3 < p.title.length) := by
  constructor
  · intro h
    obtain ⟨heq, hne⟩ := parseXMLFeed_ok_posts strip pd fd st host doc h
    refine ⟨hne, ?_⟩
    intro p hp
    rw [heq] at hp
    unfold xmlComputePosts at hp
    exact postFilter_mem p hp
  · intro h
    obtain ⟨⟨items, hji, heq⟩, hne⟩ := parseJSONFeed_ok_posts strip pd fd st host jdata h
    refine ⟨hne, ?_⟩
    intro p hp
    rw [heq] at hp
    unfold jsonComputePosts at hp
    exact postFilter_mem p hp

/-- Witness for C5: the two-item document parses successfully, and its
first parsed post has a non-sentinel title of length above 3. -/
theorem parser_filter_invariant_and_nonempty_witness :
    (parseXMLFeed exStrip exPd exFd ⟨none, []⟩ (some "a.io") exDoc).1.posts ≠ []
    ∧ ((parseXMLFeed exStrip exPd exFd ⟨none, []⟩ (some "a.io") exDoc).1.posts.getD 0
        exPostB).title ≠ "No title"
    ∧ 3 < ((parseXMLFeed exStrip exPd exFd ⟨none, []⟩ (some "a.io") exDoc).1.posts.getD 0
        exPostB).title.length := by
  have h := (parser_filter_invariant_and_nonempty exStrip exPd exFd ⟨none, []⟩ (some "a.io")
    exDoc exJData).1 rfl
  have hm : (parseXMLFeed exStrip exPd exFd ⟨none, []⟩ (some "a.io") exDoc).1.posts.getD 0 exPostB
      ∈ (parseXMLFeed exStrip exPd exFd ⟨none, []⟩ (some "a.io") exDoc).1.posts := by decide
  exact ⟨h.1, (h.2 _ hm).1, (h.2 _ hm).2⟩

/-- C10 counterexample: the platform URL constructor accepts
non-hierarchical URLs such as `mailto:user@example.com` with an empty
hostname, so `extractDomain` returns the empty string for them without
throwing, and a Post constructed from such a feed URL carries an empty
domain: the claim that every constructed Post carries a non-empty domain
string is false. -/
theorem extractDomain_empty_hostname :
    extractDomain (some "") = ""
    ∧ (parseXMLFeed exStrip exPd exFd ⟨none, []⟩ (some "") exDoc).2 = Except.ok ()
    ∧ ((parseXMLFeed exStrip exPd exFd ⟨none, []⟩ (some "") exDoc).1.posts.getD 0
        exPostA).domain = "" :=
  ⟨rfl, rfl, rfl⟩

/-- C10 (amended): the domain extraction is total; when the feed URL does
not parse as a URL it yields the literal "Unknown", which is nonempty, and
every Post constructed by a successful parse of such a malformed URL
carries the "Unknown" domain. A URL that parses with an empty hostname,
however, yields an empty domain string. -/
theorem extractDomain_total_unknown_on_parse_failure (strip : String → String)
    (pd : String → Option Int) (fd : Int → String) (st : CompState) (doc : XmlDoc) :
    extractDomain none = "Unknown"
    ∧ ("Unknown" : String) ≠ ""
    ∧ ((parseXMLFeed strip pd fd st none doc).2 = Except.ok () →
        ∀ p ∈ (parseXMLFeed strip pd fd st none doc).1.posts, p.domain = "Unknown") := by
  refine ⟨rfl, by decide, ?_⟩
  intro h p hp
  obtain ⟨heq, _⟩ := parseXMLFeed_ok_posts strip pd fd st none doc h
  rw [heq] at hp
  unfold xmlComputePosts at hp
  have hp2 := List.mem_of_mem_filter hp
  obtain ⟨it, _, hit⟩ := List.mem_map.mp hp2
  rw [← hit]
  rfl

/-- Witness for C10 (amended): a malformed feed URL yields the "Unknown"
domain on the concrete document's first parsed post. -/
theorem extractDomain_total_unknown_on_parse_failure_witness :
    extractDomain none = "Unknown"
    ∧ ((parseXMLFeed exStrip exPd exFd ⟨none, []⟩ none exDoc).1.posts.getD 0
        exPostA).domain = "Unknown" := by
  have h := extractDomain_total_unknown_on_parse_failure exStrip exPd exFd ⟨none, []⟩ exDoc
  exact ⟨h.1, h.2.2 rfl _ (by decide)⟩

/-- C7: on a cache miss, when every relay fails on every attempt (the race
settles on a rejection and every sequential retry-wrapped attempt fails),
the coordinator returns Failure whose aggregated error list pairs each
configured relay's name with its final message, one entry per relay in
declaration order, N entries for N relays. -/
theorem total_failure_error_aggregation (storage : Store) (now : Int) (rssUrl : String)
    (writeFails : Bool) (race : Service → Nat × Except String (List Post))
    (seq : Service → Except String (List Post)) (st : Store) (msgOf : Service → String)
    (hcache : loadFromCache storage now rssUrl = Except.ok (st, none))
    (hrace : ∀ s ∈ services, ∃ m, (race s).2 = Except.error m)
    (hseq : ∀ s ∈ services, seq s = Except.error (msgOf s)) :
    fetchRSSFeed storage now rssUrl writeFails race seq
      = Except.ok (⟨Outcome.failure (services.map fun s => s.name ++ ": " ++ msgOf s),
          true, true⟩, st)
    ∧ (services.map fun s => s.name ++ ": " ++ msgOf s).length = services.length := by
  refine ⟨?_, List.length_map _ _⟩
  unfold fetchRSSFeed
  rw [hcache]
  dsimp only
  cases hr : raceFirstSettled (services.map race) with
  | none =>
    rw [fallbackLoop_all_fail services seq msgOf [] hseq]
    dsimp only
    rw [List.nil_append]
  | some r =>
    have hmem := raceFirstSettled_mem _ r hr
    rw [List.map_map] at hmem
    obtain ⟨s, hs, hsr⟩ := List.mem_map.mp hmem
    obtain ⟨m, hm⟩ := hrace s hs
    have hrerr : r = Except.error m := by
      rw [← hsr]
      exact hm
    rw [hrerr]
    dsimp only
    rw [fallbackLoop_all_fail services seq msgOf [] hseq]
    dsimp only
    rw [List.nil_append]

/-- Witness for C7: all three relays failing with per-relay messages yields
a Failure carrying exactly three name-tagged errors in declaration order. -/
theorem total_failure_error_aggregation_witness :
    fetchRSSFeed [] 0 exUrl false cexRaceAllFail cexSeqMsg
      = Except.ok (⟨Outcome.failure ["allorigins: allorigins down",
          "jsonp-proxy: jsonp-proxy down", "rss2json: rss2json down"], true, true⟩, [])
    ∧ (services.map fun s => s.name ++ ": " ++ cexMsgOf s).length = services.length := by
  have h := total_failure_error_aggregation [] 0 exUrl false cexRaceAllFail cexSeqMsg []
    cexMsgOf rfl (fun s _ => ⟨s.name ++ " down", rfl⟩) (fun s _ => rfl)
  exact ⟨h.1, h.2⟩

/-- C1 counterexample: a query on a cache miss where the earliest-settling
concurrent retry-wrapped attempt (allorigins at time 1) rejects while the
concurrent jsonp-proxy attempt fulfills at time 2: the race settles on the
first rejection, so the coordinator enters the sequential fallback even
though a concurrently launched attempt succeeds — refuting both "Fallback
only after every concurrent attempt has failed" and "a concurrent success
prevents Fallback". -/
theorem race_failure_enters_fallback_despite_success :
    (fetchRSSFeed [] 0 exUrl false cexRace cexSeq).map (fun r => r.1.enteredFallback)
      = Except.ok true
    ∧ (⟨"jsonp-proxy", 3000, true⟩ : Service) ∈ services
    ∧ (cexRace ⟨"jsonp-proxy", 3000, true⟩).2 = Except.ok [exPostA] :=
  ⟨rfl, by decide, rfl⟩

/-- C1 (amended): on a cache miss the sequential fallback is entered if and
only if the first-settling concurrent attempt of the race is not a
fulfillment: `Promise.race` resolves with the first settled outcome,
fulfilled or rejected alike, so a later-settling successful concurrent
attempt does not prevent the fallback. -/
theorem fallback_iff_first_settled_not_ok (storage : Store) (now : Int) (rssUrl : String)
    (writeFails : Bool) (race : Service → Nat × Except String (List Post))
    (seq : Service → Except String (List Post)) (st : Store)
    (hcache : loadFromCache storage now rssUrl = Except.ok (st, none)) :
    (fetchRSSFeed storage now rssUrl writeFails race seq).map (fun r => r.1.enteredFallback)
      = Except.ok (!firstSettledOk (raceFirstSettled (services.map race))) := by
  unfold fetchRSSFeed
  rw [hcache]
  dsimp only
  cases hr : raceFirstSettled (services.map race) with
  | none =>
    cases hf : fallbackLoop (services.map fun s => (s, seq s)) [] with
    | mk o errs => cases o <;> simp [Except.map, firstSettledOk]
  | some r =>
    cases r with
    | ok posts => simp [Except.map, firstSettledOk]
    | error m =>
      cases hf : fallbackLoop (services.map fun s => (s, seq s)) [] with
      | mk o errs => cases o <;> simp [Except.map, firstSettledOk]

/-- Witness for C1 (amended): at the concrete race assignment whose first
settled attempt rejects, the fallback bit equals the negated
first-settled-fulfilled bit. -/
theorem fallback_iff_first_settled_not_ok_witness :
    (fetchRSSFeed [] 0 exUrl false cexRace cexSeq).map (fun r => r.1.enteredFallback)
      = Except.ok (!firstSettledOk (raceFirstSettled (services.map cexRace))) :=
  fallback_iff_first_settled_not_ok [] 0 exUrl false cexRace cexSeq [] rfl

/-- C2 counterexample: with the max-posts attribute "1" (resolved bound 1),
a query hitting a cache entry holding two posts returns Success carrying
both posts: the cache-hit path applies no maxPosts truncation (the entry
was written under an earlier, larger limit), so the claim's bound fails on
the cache-hit Success path. -/
theorem cache_hit_ignores_maxPosts :
    resolveMaxPosts (some "1") = some 1
    ∧ fetchRSSFeed exCacheStore 600000 exUrl false cexRace cexSeq
        = Except.ok (⟨Outcome.success [exPostA, exPostB] "cache", false, false⟩, exCacheStore)
    ∧ ¬ (([exPostA, exPostB] : List Post).length ≤ 1) :=
  ⟨rfl, rfl, by decide⟩

/-- C2 (amended): when the max-posts attribute resolves to a non-negative
integer bound n, every post list a parser returns successfully has at most
n entries; the cache-hit Success path instead returns the cached post list
unchanged, which can exceed a bound lowered after the entry was written. -/
theorem maxPosts_truncation_network_and_cache (strip : String → String)
    (pd : String → Option Int) (fd : Int → String) (attr : Option String)
    (ps0 : List Post) (host : Option String) (doc : XmlDoc) (jdata : JsonData)
    (n : Int) (hattr : resolveMaxPosts attr = some n) (hn : 0 ≤ n)
    (storage : Store) (now : Int) (rssUrl : String) (writeFails : Bool)
    (race : Service → Nat × Except String (List Post))
    (seq : Service → Except String (List Post)) (st : Store) (d : List Post)
    (hcache : loadFromCache storage now rssUrl = Except.ok (st, some d)) :
    ((parseXMLFeed strip pd fd ⟨attr, ps0⟩ host doc).2 = Except.ok () →
      (((parseXMLFeed strip pd fd ⟨attr, ps0⟩ host doc).1.posts.length : Int) ≤ n))
    ∧ ((parseJSONFeed strip pd fd ⟨attr, ps0⟩ host jdata).2 = Except.ok () →
      (((parseJSONFeed strip pd fd ⟨attr, ps0⟩ host jdata).1.posts.length : Int) ≤ n))
    ∧ fetchRSSFeed storage now rssUrl writeFails race seq
        = Except.ok (⟨Outcome.success d "cache", false, false⟩, st) := by
  refine ⟨?_, ?_, fetchRSSFeed_cacheHit storage now rssUrl writeFails race seq st d hcache⟩
  · intro h
    obtain ⟨heq, _⟩ := parseXMLFeed_ok_posts strip pd fd ⟨attr, ps0⟩ host doc h
    rw [heq]
    unfold xmlComputePosts
    dsimp only
    rw [hattr]
    exact computePosts_length_le _ _ n hn
  · intro h
    obtain ⟨⟨items, hji, heq⟩, _⟩ := parseJSONFeed_ok_posts strip pd fd ⟨attr, ps0⟩ host jdata h
    rw [heq]
    unfold jsonComputePosts
    dsimp only
    rw [hattr]
    exact computePosts_length_le _ _ n hn

/-- Witness for C2 (amended): with the attribute "1", the two-item XML
document and the one-item JSON payload both parse to at most one post,
while a two-post cache hit is returned unchanged. -/
theorem maxPosts_truncation_network_and_cache_witness :
    (((parseXMLFeed exStrip exPd exFd ⟨some "1", []⟩ (some "a.io") exDoc).1.posts.length : Int) ≤ 1)
    ∧ (((parseJSONFeed exStrip exPd exFd ⟨some "1", []⟩ (some "a.io") exJData).1.posts.length : Int) ≤ 1)
    ∧ fetchRSSFeed exCacheStore 600000 exUrl false cexRace cexSeq
        = Except.ok (⟨Outcome.success [exPostA, exPostB] "cache", false, false⟩, exCacheStore) := by
  have h := maxPosts_truncation_network_and_cache exStrip exPd exFd (some "1") []
    (some "a.io") exDoc exJData 1 rfl (by decide) exCacheStore 600000 exUrl false
    cexRace cexSeq exCacheStore [exPostA, exPostB] rfl
  exact ⟨h.1 rfl, h.2.1 rfl, h.2.2⟩

/-- C3 counterexample: two parser invocations with equal payload and equal
source URL but different surrounding component state (the max-posts
attribute "1" versus absent) produce different post lists, refuting that
the parsers are pure functions of (payload, sourceUrl) alone. -/
theorem parsers_depend_on_maxPosts_attr :
    (parseXMLFeed exStrip exPd exFd ⟨some "1", []⟩ (some "a.io") exDoc).1.posts
      ≠ (parseXMLFeed exStrip exPd exFd ⟨none, []⟩ (some "a.io") exDoc).1.posts := by
  decide

/-- C3 (amended): the parsers are deterministic in (payload, sourceUrl,
max-posts attribute) and touch no other component state: two invocations
from states agreeing on the max-posts attribute produce the same status,
and on success the same post list, regardless of the states' prior posts
fields; the result is written into the component's posts field rather than
merely returned. -/
theorem parsers_pure_in_payload_url_and_attr (strip : String → String)
    (pd : String → Option Int) (fd : Int → String) (st1 st2 : CompState)
    (host : Option String) (doc : XmlDoc) (jdata : JsonData)
    (h : st1.maxPostsAttr = st2.maxPostsAttr) :
    (parseXMLFeed strip pd fd st1 host doc).2 = (parseXMLFeed strip pd fd st2 host doc).2
    ∧ ((parseXMLFeed strip pd fd st1 host doc).2 = Except.ok () →
        (parseXMLFeed strip pd fd st1 host doc).1.posts
          = (parseXMLFeed strip pd fd st2 host doc).1.posts)
    ∧ (parseJSONFeed strip pd fd st1 host jdata).2 = (parseJSONFeed strip pd fd st2 host jdata).2
    ∧ ((parseJSONFeed strip pd fd st1 host jdata).2 = Except.ok () →
        (parseJSONFeed strip pd fd st1 host jdata).1.posts
          = (parseJSONFeed strip pd fd st2 host jdata).1.posts) := by
  obtain ⟨a1, p1⟩ := st1
  obtain ⟨a2, p2⟩ := st2
  dsimp only at h
  subst h
  obtain ⟨pe, ci, bi, en⟩ := doc
  refine ⟨?_, ?_, ?_, ?_⟩
  · cases pe with
    | some t => rfl
    | none =>
      by_cases hi : xmlSelectItems ⟨none, ci, bi, en⟩ = []
      · simp [parseXMLFeed, hi]
      · simp [parseXMLFeed, hi]
  · intro h2
    cases pe with
    | some t => simp [parseXMLFeed] at h2
    | none =>
      by_cases hi : xmlSelectItems ⟨none, ci, bi, en⟩ = []
      · simp [parseXMLFeed, hi] at h2
      · simp [parseXMLFeed, hi]
  · cases hj : jsonDataItems jdata with
    | none => simp [parseJSONFeed, hj]
    | some items => simp [parseJSONFeed, hj]
  · intro h2
    cases hj : jsonDataItems jdata with
    | none => simp [parseJSONFeed, hj] at h2
    | some items => simp [parseJSONFeed, hj]

/-- Witness for C3 (amended): two states sharing the attribute "1" but with
different prior posts fields parse the concrete document identically. -/
theorem parsers_pure_in_payload_url_and_attr_witness :
    (parseXMLFeed exStrip exPd exFd ⟨some "1", []⟩ (some "a.io") exDoc).2
      = (parseXMLFeed exStrip exPd exFd ⟨some "1", [exPostB]⟩ (some "a.io") exDoc).2
    ∧ (parseXMLFeed exStrip exPd exFd ⟨some "1", []⟩ (some "a.io") exDoc).1.posts
      = (parseXMLFeed exStrip exPd exFd ⟨some "1", [exPostB]⟩ (some "a.io") exDoc).1.posts := by
  have h := parsers_pure_in_payload_url_and_attr exStrip exPd exFd ⟨some "1", []⟩
    ⟨some "1", [exPostB]⟩ (some "a.io") exDoc exJData rfl
  exact ⟨h.1, h.2.1 rfl⟩

/-- C4 counterexample: the platform `btoa` throws on any string containing
a code point above 255; `loadFromCache` computes the storage key with
`btoa(rssUrl)` inside its try block, and its catch handler recomputes the
key with `btoa(rssUrl)` again, which throws again, so for a feed URL such
as one containing the euro sign the error escapes the cache read to the
caller — refuting "for every input, the cache operations never surface an
error". -/
theorem loadFromCache_throws_on_non_byte_url :
    loadFromCache [] 0 "https://a.io/€" = Except.error "InvalidCharacterError" := rfl

/-- C4 (amended): for every feed URL whose code points all fit in a byte,
the cache operations never surface an error: a cache read always returns
(in particular a corrupt stored entry is deleted and read as absent), and
a cache write whose underlying storage write fails returns with the store
unchanged, the failure swallowed. Feed URLs with code points above 255 are
excluded: there the key encoding itself throws out of the read. -/
theorem cache_errors_silent_for_byte_urls (storage : Store) (now : Int)
    (url : String) (d : List Post) (hbyte : ∀ c ∈ url.data, c.toNat ≤ 255) :
    (∃ res, loadFromCache storage now url = Except.ok res)
    ∧ saveToCache storage true now url d = storage
    ∧ (∀ enc, btoa url = Except.ok enc →
        lookupStore storage ("rss_ticker_cache_" ++ enc) = some StoredVal.corrupt →
        loadFromCache storage now url
          = Except.ok (removeStore storage ("rss_ticker_cache_" ++ enc), none)
        ∧ lookupStore (removeStore storage ("rss_ticker_cache_" ++ enc))
            ("rss_ticker_cache_" ++ enc) = none) := by
  have hany : url.data.any (fun c => decide (255 < c.toNat)) = false := by
    rw [List.any_eq_false]
    intro c hc
    simp only [decide_eq_true_eq, not_lt]
    exact hbyte c hc
  have henc : btoa url = Except.ok (encodeBase64 (url.data.map Char.toNat)) := by
    unfold btoa
    rw [if_neg]
    rw [hany]
    exact Bool.false_ne_true
  refine ⟨?_, ?_, ?_⟩
  · unfold loadFromCache
    rw [henc]
    dsimp only
    cases hl : lookupStore storage
        ("rss_ticker_cache_" ++ encodeBase64 (url.data.map Char.toNat)) with
    | none => exact ⟨_, rfl⟩
    | some v =>
      cases v with
      | emptyStr => exact ⟨_, rfl⟩
      | corrupt => exact ⟨_, rfl⟩
      | entry posts ts =>
        dsimp only
        by_cases hf : now - ts < cacheDuration
        · rw [if_pos hf]
          exact ⟨_, rfl⟩
        · rw [if_neg hf]
          exact ⟨_, rfl⟩
  · unfold saveToCache
    rw [henc]
    dsimp only
    rw [if_pos rfl]
  · intro enc henc2 hcor
    rw [henc] at henc2
    injection henc2 with he
    subst he
    unfold loadFromCache
    rw [henc]
    dsimp only
    rw [hcor]
    exact ⟨rfl, lookupStore_removeStore storage _⟩

/-- Witness for C4 (amended): on a byte-clean URL with a corrupt stored
entry, the write failure is swallowed and the corrupt entry self-heals to
an absent read. -/
theorem cache_errors_silent_for_byte_urls_witness :
    saveToCache exCorruptStore true 5 "ab" [exPostA] = exCorruptStore
    ∧ loadFromCache exCorruptStore 5 "ab" = Except.ok ([], none) := by
  have h := cache_errors_silent_for_byte_urls exCorruptStore 5 "ab" [exPostA] (by decide)
  exact ⟨h.2.1, (h.2.2 "YWI=" rfl rfl).1⟩

end RSSTicker
